import Mathlib

/-!
Verification of the sales-dashboard backend
(`backend/src/controllers/salesController.ts`).

The embedding models JS numbers as exact rationals (`ℚ`), JS insertion-ordered
string-keyed objects as association lists `List (String × ℚ)` with
first-occurrence key order, and parsed `Date` values as integer millisecond
timestamps.  Fallible request handlers return `Except String _`, the `error`
branch standing for the JSON error response the controller sends.
-/

/-- One record of `sales.json`, per the `SalesRecord` interface of
`salesController.ts`.  `orderDate` holds the parsed timestamp of the record's
`"Order Date"` string (what `new Date(record["Order Date"]).getTime()` yields);
fields the controller never reads (row id, ship date, etc.) are omitted. -/
structure SalesRecord where
  orderDate : Int
  segment : String
  city : String
  state : String
  category : String
  subCategory : String
  productName : String
  sales : ℚ
  quantity : Int
  discount : ℚ
  profit : ℚ
deriving DecidableEq, Repr

/-- Condition of the backing store `../data/sales.json`: absent, present but
not parseable as JSON, or parseable into a record list. -/
inductive Store where
  | missing : Store
  | corrupt : Store
  | ok : List SalesRecord → Store
deriving DecidableEq, Repr

/-- `getSalesData` (lines 30–42): `readFileSync` throws on a missing file and
`JSON.parse` throws on corrupt content; both land in the `catch` which returns
`[]`.  A readable, parseable file yields its records. -/
def getSalesData : Store → List SalesRecord
  | Store.missing => []
  | Store.corrupt => []
  | Store.ok records => records

/-- The state filter (lines 88–91): `if (state && state !== 'All States')`.
`none` models an absent query parameter; `some ""` is falsy in JS, so both
pass records through, as does the `'All States'` sentinel. -/
def applyStateFilter (state : Option String) (data : List SalesRecord) :
    List SalesRecord :=
  match state with
  | none => data
  | some s =>
      if s = "" then data
      else if s = "All States" then data
      else data.filter (fun record => record.state == s)

/-- The date filter (lines 94–102): `if (startDate && endDate)` requires both
bounds; the record passes when `recordDate >= start && recordDate <= end`. -/
def applyDateFilter (startDate endDate : Option Int)
    (data : List SalesRecord) : List SalesRecord :=
  match startDate, endDate with
  | some s, some e =>
      data.filter (fun record =>
        decide (s ≤ record.orderDate) && decide (record.orderDate ≤ e))
  | _, _ => data

/-- `reduce((sum, record) => sum + record.Sales, 0)` (line 105). -/
def totalSales (data : List SalesRecord) : ℚ :=
  data.foldl (fun sum record => sum + record.sales) 0

/-- `reduce((sum, record) => sum + record.Quantity, 0)` (line 106). -/
def quantitySold (data : List SalesRecord) : Int :=
  data.foldl (fun sum record => sum + record.quantity) 0

/-- `reduce((sum, record) => sum + (record.Sales * record.Discount), 0)`
(line 107). -/
def totalDiscount (data : List SalesRecord) : ℚ :=
  data.foldl (fun sum record => sum + record.sales * record.discount) 0

/-- `reduce((sum, record) => sum + record.Profit, 0)` (line 108). -/
def totalProfit (data : List SalesRecord) : ℚ :=
  data.foldl (fun sum record => sum + record.profit) 0

/-- `totalSales > 0 ? (totalDiscount / totalSales) * 100 : 0` (line 109). -/
def discountPercentage (data : List SalesRecord) : ℚ :=
  if 0 < totalSales data then totalDiscount data / totalSales data * 100 else 0

/-- `acc[key] = (acc[key] || 0) + v` on a JS object: add `v` into the entry
for `key`, keeping its original position, or append a fresh entry.  (JS string
keys keep insertion order, and reassignment keeps the original slot.) -/
def addToGroup (key : String) (v : ℚ) :
    List (String × ℚ) → List (String × ℚ)
  | [] => [(key, v)]
  | (k, s) :: rest =>
      if k = key then (k, s + v) :: rest else (k, s) :: addToGroup key v rest

/-- A `reduce`/`for` group-by-sum pass over the records, as in lines 112–115,
118–123, 140–143, 146–151 and 154–157. -/
def groupSum (key : SalesRecord → String) (val : SalesRecord → ℚ)
    (data : List SalesRecord) : List (String × ℚ) :=
  data.foldl (fun acc record => addToGroup (key record) (val record) acc) []

/-- `salesByCity` (lines 112–115). -/
def salesByCity (data : List SalesRecord) : List (String × ℚ) :=
  groupSum (fun record => record.city) (fun record => record.sales) data

/-- `productSalesMap` (lines 118–123). -/
def productSalesMap (data : List SalesRecord) : List (String × ℚ) :=
  groupSum (fun record => record.productName) (fun record => record.sales) data

/-- One step of a stable descending insertion: place `x` after every entry
whose value is strictly greater, before the rest. -/
def insertDesc (x : String × ℚ) : List (String × ℚ) → List (String × ℚ)
  | [] => [x]
  | y :: ys => if x.2 < y.2 then y :: insertDesc x ys else x :: y :: ys

/-- The stable sort `.sort((a, b) => b[1] - a[1])` of line 127: JS
`Array.prototype.sort` is stable, and the comparator orders by value
descending, so the result is the stable descending sort by value. -/
def sortDesc : List (String × ℚ) → List (String × ℚ)
  | [] => []
  | x :: xs => insertDesc x (sortDesc xs)

/-- `top10Products` (lines 126–129): sort the product map descending by
summed sales and keep the first 10. -/
def top10Products (data : List SalesRecord) : List (String × ℚ) :=
  (sortDesc (productSalesMap data)).take 10

/-- `salesByCategory` (lines 140–143). -/
def salesByCategory (data : List SalesRecord) : List (String × ℚ) :=
  groupSum (fun record => record.category) (fun record => record.sales) data

/-- `salesBySubCategory` (lines 146–151): `Object.entries` of the group-by
object, i.e. the association list itself in insertion order. -/
def salesBySubCategory (data : List SalesRecord) : List (String × ℚ) :=
  groupSum (fun record => record.subCategory) (fun record => record.sales) data

/-- `salesBySegment` (lines 154–157). -/
def salesBySegment (data : List SalesRecord) : List (String × ℚ) :=
  groupSum (fun record => record.segment) (fun record => record.sales) data

/-- JS `Math.round x = ⌊x + 1/2⌋` (round half towards +∞). -/
def jsRound (x : ℚ) : Int := ⌊x + 1 / 2⌋

/-- `Math.round(x * 10) / 10` (line 162): round to one decimal place. -/
def round1 (x : ℚ) : ℚ := (jsRound (x * 10) : ℚ) / 10

/-- The response object of lines 159–169. -/
structure Summary where
  totalSales : Int
  quantitySold : Int
  discountPercentage : ℚ
  totalProfit : Int
  salesByCity : List (String × ℚ)
  salesByProducts : List (String × ℚ)
  salesByCategory : List (String × ℚ)
  salesBySubCategory : List (String × ℚ)
  salesBySegment : List (String × ℚ)
deriving DecidableEq, Repr

/-- Lines 105–169: the aggregation applied to the filtered records, with the
output-boundary rounding of lines 160–163. -/
def summarize (filteredData : List SalesRecord) : Summary :=
  ⟨jsRound (totalSales filteredData),
   quantitySold filteredData,
   round1 (discountPercentage filteredData),
   jsRound (totalProfit filteredData),
   salesByCity filteredData,
   top10Products filteredData,
   salesByCategory filteredData,
   salesBySubCategory filteredData,
   salesBySegment filteredData⟩

/-- `getDashboardData` (lines 75–181): load, fail when the dataset is empty
(line 82 throws, landing in the 500 handler), otherwise filter by state and
date range and aggregate. -/
def getDashboardData (store : Store) (state : Option String)
    (startDate endDate : Option Int) : Except String Summary :=
  let salesData := getSalesData store
  if salesData.length = 0 then Except.error "No sales data available"
  else
    Except.ok (summarize
      (applyDateFilter startDate endDate (applyStateFilter state salesData)))

/-- `Math.min(...)` over a list of timestamps; the `[]` value is irrelevant
(the caller guards non-emptiness). -/
def listMin : List Int → Int
  | [] => 0
  | x :: xs => xs.foldl min x

/-- `Math.max(...)` over a list of timestamps. -/
def listMax : List Int → Int
  | [] => 0
  | x :: xs => xs.foldl max x

/-- The character `'0' + n` for a digit `n`. -/
def digitChar (n : Nat) : Char := Char.ofNat (48 + n % 10)

/-- Two-digit zero-padded decimal, as `toISOString` prints months and days. -/
def pad2 (n : Nat) : String :=
  String.mk [digitChar (n / 10), digitChar n]

/-- Four-digit zero-padded decimal, as `toISOString` prints years 0–9999. -/
def pad4 (n : Nat) : String :=
  String.mk [digitChar (n / 1000), digitChar (n / 100), digitChar (n / 10),
             digitChar n]

/-- Proleptic-Gregorian (year, month, day) of a day count since 1970-01-01
(Howard Hinnant's `civil_from_days`, the calendar arithmetic inside
`Date.prototype.toISOString`). -/
def civilFromDays (z : Int) : Nat × Nat × Nat :=
  let za := z + 719468
  let era := za.fdiv 146097
  let doe := (za - era * 146097).toNat
  let yoe := (doe - doe / 1460 + doe / 36524 - doe / 146096) / 365
  let doy := doe - (365 * yoe + yoe / 4 - yoe / 100)
  let mp := (5 * doy + 2) / 153
  let d := doy - (153 * mp + 2) / 5 + 1
  let m := if mp < 10 then mp + 3 else mp - 9
  let y := (yoe : Int) + era * 400 + (if m ≤ 2 then 1 else 0)
  (y.toNat, m, d)

/-- `date.toISOString().split('T')[0]` (lines 67–68) for a millisecond
timestamp: the `YYYY-MM-DD` rendering of its UTC calendar date. -/
def toISODate (t : Int) : String :=
  let c := civilFromDays (t.fdiv 86400000)
  pad4 c.1 ++ "-" ++ pad2 c.2.1 ++ "-" ++ pad2 c.2.2

/-- `getDateRange` (lines 53–73): records of the requested state (strict
equality, no sentinel), 404 when there are none, else the min and max order
dates formatted as calendar dates. -/
def getDateRange (store : Store) (state : String) :
    Except String (String × String) :=
  let stateRecords :=
    (getSalesData store).filter (fun record => record.state == state)
  if stateRecords.length = 0 then Except.error "State not found"
  else
    let times := stateRecords.map (fun record => record.orderDate)
    Except.ok (toISODate (listMin times), toISODate (listMax times))

/-- The keys of a record sequence in order of first occurrence: the key order
JS gives the group-by objects (`Object.entries` insertion order). -/
def encounterOrder (keys : List String) : List String :=
  keys.foldl (fun acc k => if k ∈ acc then acc else acc ++ [k]) []

/-- Sum of the values of an association list. -/
def sumVals (l : List (String × ℚ)) : ℚ := (l.map Prod.snd).sum

/-- Sum of the values sitting under key `k` in an association list. -/
def sumAt (k : String) (l : List (String × ℚ)) : ℚ :=
  ((l.filter (fun p => p.1 == k)).map Prod.snd).sum

section GroupLemmas

lemma sumVals_addToGroup (k : String) (v : ℚ) (l : List (String × ℚ)) :
    sumVals (addToGroup k v l) = sumVals l + v := by
  induction l with
  | nil => simp [addToGroup, sumVals]
  | cons a rest ih =>
      obtain ⟨ka, sa⟩ := a
      by_cases h : ka = k
      · simp [addToGroup, h, sumVals]; ring
      · simp only [addToGroup, h, if_false, sumVals, List.map_cons,
          List.sum_cons] at ih ⊢
        rw [ih]; ring

lemma foldl_addToGroup_sumVals (key : SalesRecord → String)
    (val : SalesRecord → ℚ) (data : List SalesRecord) :
    ∀ acc : List (String × ℚ),
      sumVals (data.foldl
        (fun acc record => addToGroup (key record) (val record) acc) acc)
      = sumVals acc + (data.map val).sum := by
  induction data with
  | nil => intro acc; simp
  | cons r rest ih =>
      intro acc
      simp only [List.foldl_cons, List.map_cons, List.sum_cons]
      rw [ih, sumVals_addToGroup]; ring

lemma sumVals_groupSum (key : SalesRecord → String) (val : SalesRecord → ℚ)
    (data : List SalesRecord) :
    sumVals (groupSum key val data) = (data.map val).sum := by
  have h := foldl_addToGroup_sumVals key val data []
  simpa [groupSum, sumVals] using h

lemma addToGroup_keys (k : String) (v : ℚ) (l : List (String × ℚ)) :
    (addToGroup k v l).map Prod.fst =
      if k ∈ l.map Prod.fst then l.map Prod.fst
      else l.map Prod.fst ++ [k] := by
  induction l with
  | nil => simp [addToGroup]
  | cons a rest ih =>
      obtain ⟨ka, sa⟩ := a
      by_cases h : ka = k
      · simp [addToGroup, h]
      · have hne : ¬ k = ka := fun hk => h hk.symm
        by_cases hmem : k ∈ rest.map Prod.fst <;>
          simp [addToGroup, h, hne, hmem, ih]

lemma foldl_addToGroup_keys (key : SalesRecord → String)
    (val : SalesRecord → ℚ) (data : List SalesRecord) :
    ∀ acc : List (String × ℚ),
      (data.foldl
        (fun acc record => addToGroup (key record) (val record) acc) acc).map
          Prod.fst
      = (data.map key).foldl
          (fun ks k => if k ∈ ks then ks else ks ++ [k]) (acc.map Prod.fst) := by
  induction data with
  | nil => intro acc; simp
  | cons r rest ih =>
      intro acc
      simp only [List.foldl_cons, List.map_cons]
      rw [ih, addToGroup_keys]

lemma groupSum_keys (key : SalesRecord → String) (val : SalesRecord → ℚ)
    (data : List SalesRecord) :
    (groupSum key val data).map Prod.fst = encounterOrder (data.map key) := by
  have h := foldl_addToGroup_keys key val data []
  simpa [groupSum, encounterOrder] using h

lemma encounterOrder_foldl_nodup (keys : List String) :
    ∀ acc : List String, acc.Nodup →
      (keys.foldl (fun acc k => if k ∈ acc then acc else acc ++ [k])
        acc).Nodup := by
  induction keys with
  | nil => intro acc h; simpa using h
  | cons k rest ih =>
      intro acc h
      simp only [List.foldl_cons]
      by_cases hmem : k ∈ acc
      · simpa [hmem] using ih acc h
      · have : (acc ++ [k]).Nodup := by simp [List.nodup_append, h, hmem]
        simpa [hmem] using ih (acc ++ [k]) this

lemma encounterOrder_nodup (keys : List String) :
    (encounterOrder keys).Nodup :=
  encounterOrder_foldl_nodup keys [] List.nodup_nil

lemma sumAt_addToGroup (k' k : String) (v : ℚ) (l : List (String × ℚ)) :
    sumAt k' (addToGroup k v l) =
      sumAt k' l + if k' = k then v else 0 := by
  induction l with
  | nil =>
      by_cases h : k' = k
      · simp [addToGroup, sumAt, h]
      · have : ¬ k = k' := fun hk => h hk.symm
        simp [addToGroup, sumAt, h, this]
  | cons a rest ih =>
      obtain ⟨ka, sa⟩ := a
      by_cases hka : ka = k
      · subst hka
        by_cases h : k' = ka
        · subst h; simp [addToGroup, sumAt]; ring
        · have : ¬ ka = k' := fun hk => h hk.symm
          simp [addToGroup, sumAt, h, this]
      · by_cases hk' : ka = k'
        · simp only [addToGroup, hka, if_false]
          simp only [sumAt, List.filter_cons] at ih ⊢
          simp [hk', ih]; ring
        · simp only [addToGroup, hka, if_false]
          simp only [sumAt, List.filter_cons] at ih ⊢
          simp [hk', ih]

lemma foldl_addToGroup_sumAt (key : SalesRecord → String)
    (val : SalesRecord → ℚ) (k' : String) (data : List SalesRecord) :
    ∀ acc : List (String × ℚ),
      sumAt k' (data.foldl
        (fun acc record => addToGroup (key record) (val record) acc) acc)
      = sumAt k' acc
        + ((data.filter (fun record => key record == k')).map val).sum := by
  induction data with
  | nil => intro acc; simp
  | cons r rest ih =>
      intro acc
      simp only [List.foldl_cons, List.filter_cons]
      rw [ih, sumAt_addToGroup]
      by_cases h : key r = k'
      · simp [h]; ring
      · have : ¬ k' = key r := fun hk => h hk.symm
        simp [h, this]

lemma sumAt_groupSum (key : SalesRecord → String) (val : SalesRecord → ℚ)
    (k' : String) (data : List SalesRecord) :
    sumAt k' (groupSum key val data)
      = ((data.filter (fun record => key record == k')).map val).sum := by
  have h := foldl_addToGroup_sumAt key val k' data []
  simpa [groupSum, sumAt] using h

lemma sumAt_eq_zero_of_not_mem {k : String} {l : List (String × ℚ)}
    (h : k ∉ l.map Prod.fst) : sumAt k l = 0 := by
  induction l with
  | nil => simp [sumAt]
  | cons a rest ih =>
      simp only [List.map_cons, List.mem_cons] at h
      push_neg at h
      have hne : ¬ a.1 = k := fun hk => h.1 hk.symm
      simp only [sumAt, List.filter_cons] at ih ⊢
      simp [hne, ih h.2]

lemma sumAt_eq_snd_of_mem {p : String × ℚ} {l : List (String × ℚ)}
    (hnd : (l.map Prod.fst).Nodup) (hp : p ∈ l) : sumAt p.1 l = p.2 := by
  induction l with
  | nil => exact absurd hp (List.not_mem_nil p)
  | cons a rest ih =>
      simp only [List.map_cons, List.nodup_cons] at hnd
      rcases List.mem_cons.mp hp with heq | hmem
      · subst heq
        have hzero : sumAt p.1 rest = 0 := sumAt_eq_zero_of_not_mem hnd.1
        simp only [sumAt, List.filter_cons] at hzero ⊢
        simp [hzero]
      · have hp1 : p.1 ∈ rest.map Prod.fst := List.mem_map_of_mem Prod.fst hmem
        have hne : ¬ a.1 = p.1 := fun hk => hnd.1 (hk ▸ hp1)
        simp only [sumAt, List.filter_cons] at ih ⊢
        simp [hne, ih hnd.2 hmem]

/-- The value stored for each key of a group-by-sum is the sum of `val` over
the records whose key matches. -/
lemma mem_groupSum_val {key : SalesRecord → String} {val : SalesRecord → ℚ}
    {data : List SalesRecord} {p : String × ℚ}
    (hp : p ∈ groupSum key val data) :
    p.2 = ((data.filter (fun record => key record == p.1)).map val).sum := by
  have hnd : ((groupSum key val data).map Prod.fst).Nodup := by
    rw [groupSum_keys]; exact encounterOrder_nodup _
  rw [← sumAt_eq_snd_of_mem hnd hp, sumAt_groupSum]

end GroupLemmas

section SortLemmas

lemma insertDesc_perm (x : String × ℚ) (l : List (String × ℚ)) :
    List.Perm (insertDesc x l) (x :: l) := by
  induction l with
  | nil => rfl
  | cons y ys ih =>
      by_cases h : x.2 < y.2
      · simp only [insertDesc, h, if_true]
        exact (ih.cons y).trans (List.Perm.swap x y ys)
      · simp [insertDesc, h]

lemma sortDesc_perm (l : List (String × ℚ)) : List.Perm (sortDesc l) l := by
  induction l with
  | nil => rfl
  | cons x xs ih => exact (insertDesc_perm x (sortDesc xs)).trans (ih.cons x)

lemma pairwise_insertDesc {x : String × ℚ} {l : List (String × ℚ)}
    (h : l.Pairwise (fun a b => b.2 ≤ a.2)) :
    (insertDesc x l).Pairwise (fun a b => b.2 ≤ a.2) := by
  induction l with
  | nil => simp [insertDesc]
  | cons y ys ih =>
      rcases List.pairwise_cons.mp h with ⟨hy, hys⟩
      by_cases hlt : x.2 < y.2
      · simp only [insertDesc, hlt, if_true, List.pairwise_cons]
        refine ⟨?_, ih hys⟩
        intro z hz
        rcases List.mem_cons.mp ((insertDesc_perm x ys).mem_iff.mp hz) with
          hzx | hzys
        · exact hzx ▸ hlt.le
        · exact hy z hzys
      · simp only [insertDesc, hlt, if_false, List.pairwise_cons]
        refine ⟨?_, hy, hys⟩
        intro z hz
        rcases List.mem_cons.mp hz with hzy | hzys
        · exact hzy ▸ le_of_not_lt hlt
        · exact (hy z hzys).trans (le_of_not_lt hlt)

lemma pairwise_sortDesc (l : List (String × ℚ)) :
    (sortDesc l).Pairwise (fun a b => b.2 ≤ a.2) := by
  induction l with
  | nil => simp [sortDesc]
  | cons x xs ih => exact pairwise_insertDesc ih

/-- Stability of the insertion step, phrased through `filter`: the entries at
any fixed value `v` keep their relative order. -/
lemma filter_insertDesc (v : ℚ) (x : String × ℚ) (l : List (String × ℚ)) :
    (insertDesc x l).filter (fun p => p.2 == v) =
      if x.2 = v then x :: l.filter (fun p => p.2 == v)
      else l.filter (fun p => p.2 == v) := by
  induction l with
  | nil =>
      by_cases h : x.2 = v <;> simp [insertDesc, h]
  | cons y ys ih =>
      by_cases hlt : x.2 < y.2
      · simp only [insertDesc, hlt, if_true, List.filter_cons]
        by_cases hx : x.2 = v
        · have hy : ¬ y.2 = v := by
            intro hyv
            rw [hx, hyv] at hlt
            exact lt_irrefl v hlt
          simp [hx, hy, ih]
        · by_cases hy : y.2 = v <;> simp [hx, hy, ih]
      · simp only [insertDesc, hlt, if_false, List.filter_cons]
        by_cases hx : x.2 = v <;> by_cases hy : y.2 = v <;> simp [hx, hy]

/-- Stability of `sortDesc`: filtering at any fixed value commutes with
sorting, so equal-valued entries appear in their pre-sort order. -/
lemma filter_sortDesc (v : ℚ) (l : List (String × ℚ)) :
    (sortDesc l).filter (fun p => p.2 == v) =
      l.filter (fun p => p.2 == v) := by
  induction l with
  | nil => rfl
  | cons x xs ih =>
      simp only [sortDesc, filter_insertDesc, List.filter_cons]
      by_cases hx : x.2 = v <;> simp [hx, ih]

end SortLemmas

section TotalsLemmas

lemma foldl_add_init {M : Type} [AddCommMonoid M] (f : SalesRecord → M)
    (data : List SalesRecord) :
    ∀ a : M, data.foldl (fun sum record => sum + f record) a
      = a + (data.map f).sum := by
  induction data with
  | nil => intro a; simp
  | cons r rest ih =>
      intro a
      simp only [List.foldl_cons, List.map_cons, List.sum_cons]
      rw [ih, add_assoc]

lemma totalSales_eq_sum (data : List SalesRecord) :
    totalSales data = (data.map (fun record => record.sales)).sum := by
  simpa [totalSales] using foldl_add_init (fun record => record.sales) data 0

lemma totalDiscount_eq_sum (data : List SalesRecord) :
    totalDiscount data
      = (data.map (fun record => record.sales * record.discount)).sum := by
  simpa [totalDiscount] using
    foldl_add_init (fun record => record.sales * record.discount) data 0

end TotalsLemmas

/-! Concrete records used by the witnesses and counterexamples below.  `recA`
and `recB` are the two records of the spec's worked example (§8); `recNeg` is
a record with a negative sales amount; `recTex` and `recUnit` are minimal
records with simp-friendly values. -/

/-- Spec example record `{City:"A", Sales:100, Discount:0.1, Quantity:2,
Profit:10}`. -/
def recA : SalesRecord :=
  ⟨0, "Consumer", "A", "StateA", "Cat", "Sub", "P1", 100, 2, 1 / 10, 10⟩

/-- Spec example record `{City:"B", Sales:50, Discount:0.2, Quantity:1,
Profit:5}`. -/
def recB : SalesRecord :=
  ⟨0, "Consumer", "B", "StateA", "Cat", "Sub", "P2", 50, 1, 1 / 5, 5⟩

/-- A record with a negative sales amount. -/
def recNeg : SalesRecord :=
  ⟨0, "Consumer", "X", "StateX", "Cat", "Sub", "P", -100, 1, 1 / 2, 0⟩

/-- A one-unit-of-sales record in state `"Texas"`. -/
def recTex : SalesRecord :=
  ⟨86400000, "Consumer", "Houston", "Texas", "Cat", "Sub", "P", 1, 1, 0, 0⟩

/-- A one-unit-of-sales record in state `"State1"`. -/
def recUnit : SalesRecord :=
  ⟨0, "Seg", "City1", "State1", "Cat", "Sub", "Prod", 1, 1, 0, 0⟩

/-- C6: the loader is a total function of the store condition: it yields the
parsed records on success and the empty sequence — never a raised error —
when the backing store is missing or corrupt. -/
theorem C6_loader_fail_open :
    getSalesData Store.missing = [] ∧ getSalesData Store.corrupt = [] ∧
      ∀ records : List SalesRecord, getSalesData (Store.ok records) = records :=
  ⟨rfl, rfl, fun _ => rfl⟩

/-- C9: `getDashboardData` is deterministic — two invocations over the same
backing-store content with the same filter parameters return identical
summaries. -/
theorem C9_deterministic (s1 s2 : Store) (state : Option String)
    (startDate endDate : Option Int) (h : s1 = s2) :
    getDashboardData s1 state startDate endDate
      = getDashboardData s2 state startDate endDate := by
  rw [h]

/-- Witness for C9 at a concrete store and parameters. -/
theorem C9_deterministic_witness :
    getDashboardData (Store.ok [recUnit]) (some "Texas") none none
      = getDashboardData (Store.ok [recUnit]) (some "Texas") none none :=
  C9_deterministic (Store.ok [recUnit]) (Store.ok [recUnit])
    (some "Texas") none none rfl

/-- C4: the region filter is an equality match on the state field with
pass-through sentinels (absent, empty, `"All States"`); the date filter is an
inclusive range applied only when both bounds are present; a `from` bound
strictly after the `to` bound filters out everything. -/
theorem C4_filters (s : String) (data : List SalesRecord) (b e : Int)
    (startDate endDate : Option Int) :
    (applyStateFilter none data = data ∧
     applyStateFilter (some "") data = data ∧
     applyStateFilter (some "All States") data = data) ∧
    (s ≠ "" → s ≠ "All States" →
      applyStateFilter (some s) data
        = data.filter (fun record => record.state == s)) ∧
    (applyDateFilter none endDate data = data ∧
     applyDateFilter startDate none data = data) ∧
    (applyDateFilter (some b) (some e) data
      = data.filter (fun record =>
          decide (b ≤ record.orderDate) && decide (record.orderDate ≤ e))) ∧
    (e < b → applyDateFilter (some b) (some e) data = []) := by
  refine ⟨⟨rfl, rfl, rfl⟩, ?_, ⟨rfl, ?_⟩, rfl, ?_⟩
  · intro h1 h2
    simp [applyStateFilter, h1, h2]
  · cases startDate <;> rfl
  · intro hlt
    simp only [applyDateFilter]
    rw [List.filter_eq_nil_iff]
    intro r _
    simp only [Bool.and_eq_true, decide_eq_true_eq, not_and]
    intro hb he
    exact absurd (hb.trans he) (not_le_of_lt hlt)

/-- Witness for C4 at concrete inputs: an out-of-order date range filters
everything out, and an ordinary state value filters by equality. -/
theorem C4_filters_witness :
    applyDateFilter (some 5) (some 3) [recUnit] = [] ∧
    applyStateFilter (some "Texas") [recUnit]
      = [recUnit].filter (fun record => record.state == "Texas") :=
  ⟨(C4_filters "Texas" [recUnit] 5 3 none none).2.2.2.2 (by decide),
   (C4_filters "Texas" [recUnit] 5 3 none none).2.1 (by decide) (by decide)⟩

/-- C7: partitioning the records by city and summing the per-city sales
recovers the exact (pre-rounding) total of sales. -/
theorem C7_city_partition (data : List SalesRecord) (_h : data ≠ []) :
    sumVals (salesByCity data) = totalSales data := by
  rw [salesByCity, sumVals_groupSum, totalSales_eq_sum]

/-- Witness for C7 at a concrete non-empty record set. -/
theorem C7_city_partition_witness :
    sumVals (salesByCity [recUnit]) = totalSales [recUnit] :=
  C7_city_partition [recUnit] (by decide)

lemma summarize_nil : summarize [] = ⟨0, 0, 0, 0, [], [], [], [], []⟩ := by
  simp only [summarize, totalSales, quantitySold, totalDiscount, totalProfit,
    discountPercentage, salesByCity, top10Products, productSalesMap,
    salesByCategory, salesBySubCategory, salesBySegment, groupSum,
    sortDesc, jsRound, round1, List.foldl_nil, List.take_nil]
  norm_num

/-- C3: `getDashboardData` answers with an error exactly when the loader
yields an empty record set; when the loader yields records but the filters
exclude every one of them, it succeeds with the all-zero, empty-groupings
summary. -/
theorem C3_empty_dataset_error (store : Store) (state : Option String)
    (startDate endDate : Option Int) :
    (getDashboardData store state startDate endDate
        = Except.error "No sales data available"
      ↔ getSalesData store = []) ∧
    (getSalesData store ≠ [] →
      applyDateFilter startDate endDate
          (applyStateFilter state (getSalesData store)) = [] →
      getDashboardData store state startDate endDate
        = Except.ok ⟨0, 0, 0, 0, [], [], [], [], []⟩) := by
  constructor
  · constructor
    · intro h
      by_contra hne
      have hlen : ¬ (getSalesData store).length = 0 :=
        fun h0 => hne (List.length_eq_zero.mp h0)
      simp [getDashboardData, hlen] at h
    · intro h
      simp [getDashboardData, h]
  · intro hne hfiltered
    have hlen : ¬ (getSalesData store).length = 0 :=
      fun h0 => hne (List.length_eq_zero.mp h0)
    simp only [getDashboardData, hlen, if_false, hfiltered, summarize_nil]

/-- Witness for C3: a one-record store with a region filter matching nothing
yields the all-zero summary. -/
theorem C3_empty_dataset_error_witness :
    getDashboardData (Store.ok [recUnit]) (some "Zetaland") none none
      = Except.ok ⟨0, 0, 0, 0, [], [], [], [], []⟩ :=
  (C3_empty_dataset_error (Store.ok [recUnit]) (some "Zetaland") none none).2
    (by decide) (by decide)

/-- C10: an absent (or empty) region parameter behaves like the explicit
`"All States"` sentinel, and both produce the summary of all loaded records
(filtered only by the date range). -/
theorem C10_absent_region_sentinel (store : Store)
    (startDate endDate : Option Int) (h : getSalesData store ≠ []) :
    getDashboardData store none startDate endDate
      = getDashboardData store (some "All States") startDate endDate ∧
    getDashboardData store none startDate endDate
      = getDashboardData store (some "") startDate endDate ∧
    getDashboardData store none startDate endDate
      = Except.ok (summarize
          (applyDateFilter startDate endDate (getSalesData store))) := by
  refine ⟨rfl, rfl, ?_⟩
  have hlen : ¬ (getSalesData store).length = 0 :=
    fun h0 => h (List.length_eq_zero.mp h0)
  simp only [getDashboardData, hlen, if_false, applyStateFilter]

/-- Witness for C10 at a concrete non-empty store. -/
theorem C10_absent_region_sentinel_witness :
    getDashboardData (Store.ok [recUnit]) none none none
      = getDashboardData (Store.ok [recUnit]) (some "All States") none none ∧
    getDashboardData (Store.ok [recUnit]) none none none
      = getDashboardData (Store.ok [recUnit]) (some "") none none ∧
    getDashboardData (Store.ok [recUnit]) none none none
      = Except.ok (summarize
          (applyDateFilter none none (getSalesData (Store.ok [recUnit])))) :=
  C10_absent_region_sentinel (Store.ok [recUnit]) none none (by decide)

/-- C1 counterexample: on a record set whose total sales are negative (hence
nonzero), the code returns a discount percentage of `0`, not
`totalDiscount / totalSales * 100` as the claim states for every nonzero
total. -/
theorem C1_counterexample :
    totalSales [recNeg] ≠ 0 ∧
    discountPercentage [recNeg]
      ≠ totalDiscount [recNeg] / totalSales [recNeg] * 100 := by
  constructor
  · norm_num [totalSales, recNeg]
  · norm_num [discountPercentage, totalDiscount, totalSales, recNeg]

/-- C1 (amended): the total discount amount is the sales-weighted sum
`Σ sales·discount`; the discount percentage is
`totalDiscount / totalSales * 100` when the total sales are positive and `0`
when they are not (the code tests `totalSales > 0`, not `≠ 0`); on the spec's
two-record example the total discount amount is `20` and the rounded
percentage is `13.3`. -/
theorem C1_discount_weighting (data : List SalesRecord) :
    totalDiscount data
      = (data.map (fun record => record.sales * record.discount)).sum ∧
    (0 < totalSales data →
      discountPercentage data
        = totalDiscount data / totalSales data * 100) ∧
    (¬ 0 < totalSales data → discountPercentage data = 0) ∧
    totalDiscount [recA, recB] = 20 ∧
    round1 (discountPercentage [recA, recB]) = 133 / 10 := by
  refine ⟨totalDiscount_eq_sum data, ?_, ?_, ?_, ?_⟩
  · intro h; simp [discountPercentage, h]
  · intro h; simp [discountPercentage, h]
  · norm_num [totalDiscount, recA, recB]
  · simp only [round1, discountPercentage, totalDiscount, totalSales,
      jsRound, recA, recB, List.foldl_cons, List.foldl_nil]
    norm_num

/-- Witness for C1 at a record set with positive total sales. -/
theorem C1_discount_weighting_witness :
    discountPercentage [recUnit]
      = totalDiscount [recUnit] / totalSales [recUnit] * 100 :=
  (C1_discount_weighting [recUnit]).2.1 (by simp [totalSales, recUnit])

/-- C2: the top-products list is the per-product group-by-sum, stably sorted
descending by summed sales and truncated to 10: its length is at most 10, it
is descending, it is literally the first 10 of the full descending sort
(which permutes the per-product sums), equal-valued entries keep their
pre-sort order, and the pre-sort key order is the first-occurrence encounter
order of the product names. -/
theorem C2_top_products (data : List SalesRecord) :
    (top10Products data).length ≤ 10 ∧
    (top10Products data).Pairwise (fun a b => b.2 ≤ a.2) ∧
    top10Products data = (sortDesc (productSalesMap data)).take 10 ∧
    List.Perm (sortDesc (productSalesMap data)) (productSalesMap data) ∧
    (sortDesc (productSalesMap data)).Pairwise (fun a b => b.2 ≤ a.2) ∧
    (∀ v : ℚ,
      (sortDesc (productSalesMap data)).filter (fun p => p.2 == v)
        = (productSalesMap data).filter (fun p => p.2 == v)) ∧
    (productSalesMap data).map Prod.fst
      = encounterOrder (data.map (fun record => record.productName)) := by
  refine ⟨List.length_take_le 10 _, ?_, rfl, sortDesc_perm _,
    pairwise_sortDesc _, fun v => filter_sortDesc v _, ?_⟩
  · exact (pairwise_sortDesc (productSalesMap data)).sublist
      (List.take_sublist 10 _)
  · exact groupSum_keys _ _ data

/-- C8: the sales-by-sub-category sequence has one entry per distinct
sub-category, in first-occurrence encounter order (not sorted by value), and
each entry's value is the sum of sales of the records with that
sub-category. -/
theorem C8_subcategory_order (data : List SalesRecord) :
    (salesBySubCategory data).map Prod.fst
      = encounterOrder (data.map (fun record => record.subCategory)) ∧
    ((salesBySubCategory data).map Prod.fst).Nodup ∧
    ∀ p ∈ salesBySubCategory data,
      p.2 = ((data.filter (fun record => record.subCategory == p.1)).map
        (fun record => record.sales)).sum := by
  refine ⟨groupSum_keys _ _ data, ?_, ?_⟩
  · rw [salesBySubCategory, groupSum_keys]
    exact encounterOrder_nodup _
  · intro p hp
    exact mem_groupSum_val hp

/-- Witness for C8 at a concrete one-record set. -/
theorem C8_subcategory_order_witness :
    ((("Sub" : String), (1 : ℚ))).2
      = (([recUnit].filter (fun record =>
          record.subCategory == ((("Sub" : String), (1 : ℚ))).1)).map
          (fun record => record.sales)).sum :=
  (C8_subcategory_order [recUnit]).2.2 ("Sub", 1)
    (by simp [salesBySubCategory, groupSum, addToGroup, recUnit])

/-- C5: `getDateRange` answers 404 exactly when no record matches the
requested state; otherwise it returns the minimum and maximum order dates of
the matching records rendered as 10-character `YYYY-MM-DD` calendar dates
(epoch `0` renders as `"1970-01-01"`, not as a timestamp). -/
theorem C5_date_bounds (store : Store) (state : String) :
    (getDateRange store state = Except.error "State not found"
      ↔ (getSalesData store).filter
          (fun record => record.state == state) = []) ∧
    ((getSalesData store).filter (fun record => record.state == state) ≠ [] →
      getDateRange store state = Except.ok
        (toISODate (listMin (((getSalesData store).filter
            (fun record => record.state == state)).map
              (fun record => record.orderDate))),
         toISODate (listMax (((getSalesData store).filter
            (fun record => record.state == state)).map
              (fun record => record.orderDate))))) ∧
    (∀ t : Int, ∃ y m d : Nat,
      toISODate t = pad4 y ++ "-" ++ pad2 m ++ "-" ++ pad2 d ∧
      (toISODate t).length = 10) ∧
    toISODate 0 = "1970-01-01" := by
  refine ⟨?_, ?_, ?_, by decide⟩
  · constructor
    · intro h
      by_contra hne
      have hlen : ¬ ((getSalesData store).filter
          (fun record => record.state == state)).length = 0 :=
        fun h0 => hne (List.length_eq_zero.mp h0)
      simp [getDateRange, hlen] at h
    · intro h
      simp [getDateRange, h]
  · intro hne
    have hlen : ¬ ((getSalesData store).filter
        (fun record => record.state == state)).length = 0 :=
      fun h0 => hne (List.length_eq_zero.mp h0)
    simp only [getDateRange, hlen, if_false]
  · intro t
    refine ⟨(civilFromDays (t.fdiv 86400000)).1,
      (civilFromDays (t.fdiv 86400000)).2.1,
      (civilFromDays (t.fdiv 86400000)).2.2, rfl, ?_⟩
    simp [toISODate, pad4, pad2, String.length_append, String.length]

/-- Witness for C5: the one-record store for `"Texas"` yields its order date
as both bounds. -/
theorem C5_date_bounds_witness :
    getDateRange (Store.ok [recTex]) "Texas" = Except.ok
      (toISODate (listMin (((getSalesData (Store.ok [recTex])).filter
          (fun record => record.state == "Texas")).map
            (fun record => record.orderDate))),
       toISODate (listMax (((getSalesData (Store.ok [recTex])).filter
          (fun record => record.state == "Texas")).map
            (fun record => record.orderDate)))) :=
  (C5_date_bounds (Store.ok [recTex]) "Texas").2.1 (by decide)
